import Mathlib

/-!
Shallow embedding of the semantic-search web application (`app.py`,
`index.py`, `index_qdrant.py`).  Pure Python values are modelled as Lean
values: Qdrant payload dicts become association lists of `PVal`, point
identifiers become `PointId` (unsigned integer or UUID-style string, the
two forms Qdrant admits), and the external services (embedding model,
vector store similarity scoring, LLM generator) are parameters of the
pipeline functions.  Fallible Python code (code that can raise) returns
`Option`.
-/

/-- Payload value stored in a Qdrant point payload dict: the application
stores strings (text, category, session data) and integers (timestamps,
chunk indices). -/
inductive PVal where
  | s (v : String)
  | n (v : Int)
deriving DecidableEq, Repr

/-- Python str() of a payload value, as used in f-string interpolation. -/
def pvalToStr : PVal → String
  | .s v => v
  | .n v => toString v

/-- A payload dict, modelled as an association list (insertion order). -/
abbrev Payload := List (String × PVal)

/-- Python dict.get(k) with no default: `none` when the key is absent. -/
def pgetOpt (pl : Payload) (k : String) : Option PVal :=
  match pl.find? (fun kv => kv.1 == k) with
  | some kv => some kv.2
  | none => none

/-- Python dict.get(k, d): the stored value, or the default `d`. -/
def pget (pl : Payload) (k : String) (d : PVal) : PVal :=
  match pgetOpt pl k with
  | some v => v
  | none => d

/-- A Qdrant point identifier: an unsigned integer or a UUID string. -/
inductive PointId where
  | num (n : Nat)
  | str (s : String)
deriving DecidableEq, Repr

/-- Python int(c) for a single decimal digit character. -/
def decDigit (c : Char) : Option Nat :=
  if c.isDigit then some (c.toNat - 48) else none

/-- Python int(s) on a string: succeeds exactly on nonempty all-digit
strings (the store only ever holds unsigned numeric ids or UUID strings,
so signs and whitespace do not arise); raises (`none`) otherwise, e.g. on
a UUID string. -/
def pyIntOfString (s : String) : Option Nat :=
  if s.data.isEmpty then none
  else s.data.foldl (fun acc c => acc.bind fun a => (decDigit c).map fun d => a * 10 + d) (some 0)

/-- Python int(point.id): an integer id is returned as-is, a string id is
parsed as a decimal integer and raises (`none`) when non-numeric. -/
def pyIntOfId : PointId → Option Nat
  | .num n => some n
  | .str s => pyIntOfString s

/-- A stored point: identifier, dense vector, optional payload dict. -/
structure Point where
  id : PointId
  vector : List ℚ
  payload : Option Payload
deriving DecidableEq, Repr

/-- Python truthiness of `point.payload` (None and the empty dict are
falsy). -/
def payloadTruthy (p : Option Payload) : Bool :=
  match p with
  | some pl => !pl.isEmpty
  | none => false

/-- The similarity metric of a collection; the application only ever
creates cosine collections. -/
inductive Distance where
  | cosine
deriving DecidableEq, Repr

/-- A named collection: vector size, metric, and stored points in
store-determined scan order. -/
structure Collection where
  name : String
  vector_size : Nat
  distance : Distance
  points : List Point
deriving DecidableEq, Repr

/-- The vector store: its list of collections. -/
structure Store where
  collections : List Collection
deriving DecidableEq, Repr

/-- Model of `[c.name for c in client.get_collections().collections]`. -/
def collectionNames (st : Store) : List String :=
  st.collections.map (·.name)

/-- Model of the store looking up a collection by name; `none` is the
NotFound error of the store. -/
def getCollection (st : Store) (name : String) : Option Collection :=
  st.collections.find? (fun c => c.name == name)

/-- Model of `client.scroll(collection_name=..., limit=limit)`: the first
`limit` points in store-determined order. -/
def pyScroll (pts : List Point) (limit : Nat) : List Point :=
  pts.take limit

/-- An embedding function (the external sentence-transformers model),
taken as a parameter. -/
abbrev EmbedFn := String → List ℚ

/-- A similarity scoring function (the cosine scoring of the external store),
taken as a parameter. -/
abbrev ScoreFn := List ℚ → List ℚ → ℚ

/-- An answer generator (the external Groq LLM), taken as a parameter. -/
abbrev GenFn := String → String

/-- A search hit (Qdrant ScoredPoint): id, similarity score, payload. -/
structure Hit where
  id : PointId
  score : ℚ
  payload : Option Payload
deriving DecidableEq, Repr

/-- Model of the external `client.search(...)` of the store on one collection,
per the contract in the spec for a cosine collection: score every stored
point, order by non-increasing score, return at most `limit` hits.  The
scoring itself is the business of the external model and is a parameter. -/
def clientSearch (score : ScoreFn) (coll : Collection) (qv : List ℚ) (limit : Nat) : List Hit :=
  ((coll.points.map fun p => Hit.mk p.id (score qv p.vector) p.payload).mergeSort
    (fun a b => decide (b.score ≤ a.score))).take limit

/-- Store-level `client.search`: raises (`none`) when the collection does
not exist, as the real store does. -/
def clientSearchStore (score : ScoreFn) (st : Store) (collection_name : String)
    (qv : List ℚ) (limit : Nat) : Option (List Hit) :=
  match getCollection st collection_name with
  | some coll => some (clientSearch score coll qv limit)
  | none => none

/-- Model of `client.upsert` on a known-to-exist collection: a point with
an already-present id replaces it, otherwise the point is appended.
Callers in the application either ensure the collection exists or crash
earlier, so the missing-collection case leaves the store unchanged
here. -/
def upsertPoints (pts : List Point) (new : List Point) : List Point :=
  new.foldl
    (fun acc p =>
      if acc.any (fun q => q.id == p.id) then
        acc.map (fun q => if q.id == p.id then p else q)
      else acc ++ [p])
    pts

/-- Store-level upsert into the named collection. -/
def upsertStore (st : Store) (collection_name : String) (new : List Point) : Store :=
  ⟨st.collections.map fun c =>
    if c.name == collection_name then { c with points := upsertPoints c.points new } else c⟩

/-- An outbound external call made by the retrieval pipeline: embedding
inference, store similarity search, or generator completion. -/
inductive XCall where
  | embedCall (query : String)
  | searchCall (collection_name : String) (limit : Nat)
  | genCall (prompt : String)
deriving DecidableEq, Repr

/-- The line the context loop of `search_and_query_groq` appends for hit
number `i` (1-based): nothing when the payload is falsy, otherwise the
number, the text body (default "N/A"), and a newline. -/
def hitLine (i : Nat) (h : Hit) : String :=
  if payloadTruthy h.payload then
    match h.payload with
    | some pl => toString i ++ ". " ++ pvalToStr (pget pl "text" (PVal.s "N/A")) ++ "\n"
    | none => ""
  else ""

/-- The concatenation the context loop builds over the hits, numbering
from `i`. -/
def contextBody (i : Nat) : List Hit → String
  | [] => ""
  | h :: hs => hitLine i h ++ contextBody (i + 1) hs

/-- The context block of `search_and_query_groq`: header plus one
numbered line per truthy-payload hit, numbered from 1. -/
def buildContext (hits : List Hit) : String :=
  "Based on the following relevant documents:\n\n" ++ contextBody 1 hits

/-- The full prompt of `search_and_query_groq` (app.py line 87). -/
def buildPrompt (hits : List Hit) (query : String) : String :=
  buildContext hits ++ "\n\nQuestion: " ++ query ++ "\n\nAnswer based on the documents above:"

/-- The sentinel message returned for a missing collection (app.py line
72). -/
def sentinelMsg : String :=
  "Collection not found. Please create and populate the collection first."

/-- Result of the retrieval pipeline: the search hits, the answer text,
and the trace of external embed/search/generate calls made. -/
structure PipelineOut where
  hits : List Hit
  answer : String
  calls : List XCall
deriving DecidableEq, Repr

/-- Model of `search_and_query_groq` (app.py lines 66-96): if the target
collection is absent, return the empty hit list and the sentinel message
without contacting any external service; otherwise embed the query,
search with limit 10, build the prompt and ask the generator.  `none` is
an uncaught exception. -/
def search_and_query_groq (score : ScoreFn) (embed : EmbedFn) (gen : GenFn)
    (st : Store) (query : String) (collection_name : String) : Option PipelineOut :=
  if collection_name ∈ collectionNames st then
    let query_embedding := embed query
    match clientSearchStore score st collection_name query_embedding 10 with
    | some search_result =>
      let full_prompt := buildPrompt search_result query
      some ⟨search_result, gen full_prompt,
        [.embedCall query, .searchCall collection_name 10, .genCall full_prompt]⟩
    | none => none
  else
    some ⟨[], sentinelMsg, []⟩

/-- Python `all_text[i:i+chunk_size].strip()` truthiness: the window
survives iff it has a non-whitespace character.  `pyIsSpace` is Python
the ASCII whitespace of Python str.strip(). -/
def pyIsSpace (c : Char) : Bool :=
  c == ' ' || c == '\t' || c == '\n' || c == '\x0d' || c == '\x0b' || c == '\x0c'

/-- A window is kept iff stripping leaves it nonempty. -/
def keepChunk (cs : List Char) : Bool :=
  cs.any (fun c => !pyIsSpace c)

/-- The fixed-size character windows `[all_text[i:i+w] for i in
range(0, len(all_text), w)]`, as a recursion on the text.  Python raises
on step 0, so `w = 0` is outside the model and returns `[]`. -/
def textWindows (w : Nat) (cs : List Char) : List (List Char) :=
  if h : w = 0 ∨ cs.isEmpty then []
  else cs.take w :: textWindows w (cs.drop w)
termination_by cs.length
decreasing_by
  simp only [not_or, List.isEmpty_iff] at h
  have h1 : 0 < w := Nat.pos_of_ne_zero h.1
  have h2 : 0 < cs.length := List.length_pos.mpr h.2
  simpa using Nat.sub_lt h2 h1

/-- The chunking step of `extract_pdf_chunks` (app.py line 114): the
fixed-size windows of the concatenated extracted text, with blank
windows discarded.  PDF text extraction itself is the external pypdf
library; the function takes the concatenated text as input. -/
def extract_pdf_chunks (all_text : List Char) (chunk_size : Nat) : List (List Char) :=
  (textWindows chunk_size all_text).filter keepChunk

/-- Python `[int(point.id) for point in points[0]]`: all scanned ids as
integers, raising (`none`) on the first non-numeric id. -/
def scannedIds : List Point → Option (List Nat)
  | [] => some []
  | p :: rest => (pyIntOfId p.id).bind fun i => (scannedIds rest).map fun is => i :: is

/-- The maximum numeric identifier among scanned points:
`max(int(point.id) for point in points[0])`.  Raises (`none`) when some
id fails int() or the scan is empty. -/
def scannedMaxId (scanned : List Point) : Option Nat :=
  (scannedIds scanned).bind List.max?

/-- The next-id computation shared by `add_document`, `upload_pdf` and
`index_qdrant.get_next_id`: 1 on an empty scan, otherwise the scanned
maximum plus one; raises (`none`) when a scanned id is non-numeric. -/
def nextIdFromScan (scanned : List Point) : Option Nat :=
  match scanned with
  | [] => some 1
  | _ => (scannedMaxId scanned).map (· + 1)

/-- The point `upload_pdf` builds for chunk index `i` (app.py lines
253-259): id `next_id + i`, the embedding of the chunk, and the payload of
text, source filename, and chunk index. -/
def mkUploadPoint (embed : EmbedFn) (filename : String) (next_id : Nat)
    (i : Nat) (chunk : String) : Point :=
  ⟨.num (next_id + i), embed chunk,
    some [("text", .s chunk), ("source", .s filename), ("chunk", .n (i : Int))]⟩

/-- The points `upload_pdf` builds for the chunk list starting at chunk
index `i`, in chunk order. -/
def mkUploadPoints (embed : EmbedFn) (filename : String) (next_id : Nat) :
    Nat → List String → List Point
  | _, [] => []
  | i, c :: rest => mkUploadPoint embed filename next_id i c :: mkUploadPoints embed filename next_id (i + 1) rest

/-- The batching loop of `upload_pdf` (app.py lines 249-265): accumulate
points into `batch`, flush to the store when the batch reaches 20 points
or the last chunk has been appended.  Returns the flushed batches in
flush order; `i` is the current chunk index, `n` the total number of
chunks. -/
def uploadLoop (embed : EmbedFn) (filename : String) (next_id : Nat) (n : Nat) :
    List String → Nat → List Point → List (List Point) → List (List Point)
  | [], _, _, out => out
  | c :: rest, i, batch, out =>
    let batch₂ := batch ++ [mkUploadPoint embed filename next_id i c]
    if batch₂.length = 20 ∨ i = n - 1 then
      uploadLoop embed filename next_id n rest (i + 1) [] (out ++ [batch₂])
    else
      uploadLoop embed filename next_id n rest (i + 1) batch₂ out

/-- The batches `upload_pdf` upserts, in upsert order. -/
def uploadBatches (embed : EmbedFn) (filename : String) (next_id : Nat)
    (chunks : List String) : List (List Point) :=
  uploadLoop embed filename next_id chunks.length chunks 0 [] []

/-- The ingestion core of `upload_pdf` (app.py lines 242-265) given the
points of the target collection and the extracted chunks: compute the next id
from a 100-point scan, then batch-upsert; `none` is the int() exception
on a non-numeric scanned id. -/
def upload_pdf_ingest (coll_points : List Point) (embed : EmbedFn) (filename : String)
    (chunks : List String) : Option (List (List Point)) :=
  (nextIdFromScan (pyScroll coll_points 100)).map fun next_id =>
    uploadBatches embed filename next_id chunks

/-- The core of `add_document` (app.py lines 192-211): embed the text,
compute the next id from a 100-point scan, and upsert one point with the
text and category payload; `none` is the int() exception. -/
def add_document (coll_points : List Point) (embed : EmbedFn)
    (text : String) (category : String) : Option (List Point) :=
  (nextIdFromScan (pyScroll coll_points 100)).map fun next_id =>
    upsertPoints coll_points
      [⟨.num next_id, embed text, some [("text", .s text), ("category", .s category)]⟩]

/-- Model of the `create_collection` POST handler (app.py lines 171-183):
an existing name yields a failure message and leaves the store untouched;
otherwise a cosine collection of the requested vector size is created.
The returned Bool is the success flag of the template; no branch raises. -/
def create_collection (st : Store) (collection_name : String) (vector_size : Nat) :
    Store × String × Bool :=
  if collection_name ∈ collectionNames st then
    (st, "Collection \x27" ++ collection_name ++ "\x27 already exists.", false)
  else
    (⟨st.collections ++ [⟨collection_name, vector_size, .cosine, []⟩]⟩,
     "Collection \x27" ++ collection_name ++ "\x27 created successfully!", true)


theorem textWindows_nil (w : Nat) : textWindows w [] = [] := by
  rw [textWindows]
  simp

theorem textWindows_cons {w : Nat} (hw : 0 < w) {cs : List Char} (hcs : cs ≠ []) :
    textWindows w cs = cs.take w :: textWindows w (cs.drop w) := by
  have h : ¬(w = 0 ∨ cs.isEmpty) := by
    rintro (h0 | he)
    · omega
    · exact hcs (List.isEmpty_iff.mp he)
  rw [textWindows, dif_neg h]

theorem textWindows_flatten {w : Nat} (hw : 0 < w) (cs : List Char) :
    (textWindows w cs).flatten = cs := by
  suffices H : ∀ n (cs : List Char), cs.length ≤ n → (textWindows w cs).flatten = cs from
    H cs.length cs le_rfl
  intro n
  induction n with
  | zero =>
    intro cs hcs
    have h : cs = [] := List.eq_nil_of_length_eq_zero (Nat.le_zero.mp hcs)
    subst h
    simp [textWindows_nil]
  | succ n ih =>
    intro cs hcs
    by_cases hnil : cs = []
    · subst hnil
      simp [textWindows_nil]
    · have hpos : 0 < cs.length := List.length_pos.mpr hnil
      have hrec : (cs.drop w).length ≤ n := by
        rw [List.length_drop]
        omega
      rw [textWindows_cons hw hnil, List.flatten_cons, ih _ hrec, List.take_append_drop]

theorem textWindows_count {w : Nat} (hw : 0 < w) (cs : List Char) :
    (textWindows w cs).length = (cs.length + w - 1) / w := by
  suffices H : ∀ n (cs : List Char), cs.length ≤ n →
      (textWindows w cs).length = (cs.length + w - 1) / w from H cs.length cs le_rfl
  intro n
  induction n with
  | zero =>
    intro cs hcs
    have h : cs = [] := List.eq_nil_of_length_eq_zero (Nat.le_zero.mp hcs)
    subst h
    have h0 : (w - 1) / w = 0 := Nat.div_eq_of_lt (by omega)
    simp [textWindows_nil, h0]
  | succ n ih =>
    intro cs hcs
    by_cases hnil : cs = []
    · subst hnil
      have h0 : (w - 1) / w = 0 := Nat.div_eq_of_lt (by omega)
      simp [textWindows_nil, h0]
    · have hpos : 0 < cs.length := List.length_pos.mpr hnil
      have hrec : (cs.drop w).length ≤ n := by
        rw [List.length_drop]
        omega
      rw [textWindows_cons hw hnil, List.length_cons, ih _ hrec, List.length_drop]
      have hsplit : cs.length + w - 1 = (cs.length - 1) + w := by omega
      rw [hsplit, Nat.add_div_right _ hw]
      by_cases hlw : cs.length ≤ w
      · have h1 : cs.length - w = 0 := by omega
        rw [h1]
        have h2 : (0 + w - 1) / w = 0 := Nat.div_eq_of_lt (by omega)
        have h3 : (cs.length - 1) / w = 0 := Nat.div_eq_of_lt (by omega)
        omega
      · have h1 : cs.length - w + w - 1 = cs.length - 1 := by omega
        rw [h1]

theorem textWindows_size_le {w : Nat} (cs : List Char) :
    ∀ l ∈ textWindows w cs, l.length ≤ w := by
  suffices H : ∀ n (cs : List Char), cs.length ≤ n →
      ∀ l ∈ textWindows w cs, l.length ≤ w from H cs.length cs le_rfl
  intro n
  induction n with
  | zero =>
    intro cs hcs
    have h : cs = [] := List.eq_nil_of_length_eq_zero (Nat.le_zero.mp hcs)
    subst h
    simp [textWindows_nil]
  | succ n ih =>
    intro cs hcs l hl
    by_cases hw : w = 0
    · rw [textWindows, dif_pos (Or.inl hw)] at hl
      simp at hl
    · by_cases hnil : cs = []
      · subst hnil
        rw [textWindows_nil] at hl
        simp at hl
      · have hpos : 0 < cs.length := List.length_pos.mpr hnil
        have hrec : (cs.drop w).length ≤ n := by
          rw [List.length_drop]
          omega
        rw [textWindows_cons (by omega) hnil] at hl
        rcases List.mem_cons.mp hl with rfl | hl
        · simpa using Nat.min_le_left w cs.length
        · exact ih _ hrec l hl

theorem textWindows_dropLast_size {w : Nat} (hw : 0 < w) (cs : List Char) :
    ∀ l ∈ (textWindows w cs).dropLast, l.length = w := by
  suffices H : ∀ n (cs : List Char), cs.length ≤ n →
      ∀ l ∈ (textWindows w cs).dropLast, l.length = w from H cs.length cs le_rfl
  intro n
  induction n with
  | zero =>
    intro cs hcs
    have h : cs = [] := List.eq_nil_of_length_eq_zero (Nat.le_zero.mp hcs)
    subst h
    simp [textWindows_nil]
  | succ n ih =>
    intro cs hcs l hl
    by_cases hnil : cs = []
    · subst hnil
      rw [textWindows_nil] at hl
      simp at hl
    · have hpos : 0 < cs.length := List.length_pos.mpr hnil
      have hrec : (cs.drop w).length ≤ n := by
        rw [List.length_drop]
        omega
      rw [textWindows_cons hw hnil] at hl
      by_cases hrest : textWindows w (cs.drop w) = []
      · rw [hrest] at hl
        simp at hl
      · rw [List.dropLast_cons_of_ne_nil hrest] at hl
        rcases List.mem_cons.mp hl with rfl | hl
        · have hdrop : cs.drop w ≠ [] := by
            intro hd
            rw [hd, textWindows_nil] at hrest
            exact hrest rfl
          have hlen : w < cs.length := by
            rcases Nat.lt_or_ge w cs.length with h' | h'
            · exact h'
            · exact absurd (List.drop_eq_nil_iff.mpr h') hdrop
          simp [List.length_take]
          omega
        · exact ih _ hrec l hl

/-- The sort key of the session-replay loop (app.py line 379):
`p.payload.get("timestamp", 0) if p.payload else 0`, with a falsy (None
or empty) payload giving 0.  `chat_post` only ever stores integer
timestamps, so a string value (which Python sorted would reject when
mixed with ints) is outside the model and maps to 0. -/
def tsKey (p : Point) : Int :=
  match p.payload with
  | some pl =>
    if pl.isEmpty then 0
    else
      match pget pl "timestamp" (PVal.n 0) with
      | .n v => v
      | .s _ => 0
  | none => 0

/-- The comparison Python sorted uses on the timestamp keys. -/
def tsLe (a b : Point) : Bool :=
  decide (tsKey a ≤ tsKey b)

/-- The session filter of the replay loop (app.py line 381):
`payload is not None and payload.get("session_id") == session_id`. -/
def isSessionTurn (sid : String) (p : Point) : Bool :=
  match p.payload with
  | some pl => pgetOpt pl "session_id" == some (PVal.s sid)
  | none => false

/-- The (user, bot) pair the replay loop appends for a matching point
(app.py line 382). -/
def turnOf (p : Point) : String × String :=
  match p.payload with
  | some pl => (pvalToStr (pget pl "user_message" (PVal.s "")),
                pvalToStr (pget pl "bot_response" (PVal.s "")))
  | none => ("", "")

/-- The replay core of `chat_session_page` (app.py lines 376-384) on the
scanned points: stable-sort by timestamp ascending (Python sorted),
keep the turns of the requested session, and read off the conversation
pairs. -/
def chat_session_replay (pts : List Point) (sid : String) : List (String × String) :=
  ((pts.mergeSort tsLe).filter (isSessionTurn sid)).map turnOf

/-- The system prompt of the chat route (app.py line 298). -/
def systemPromptMsg : String :=
  "You are a helpful assistant. Only answer using the provided information. If you don\x27t know, say you don\x27t know."

/-- The line the chat context loop appends for one hit (app.py lines
294-296): the text body and a newline when the payload is truthy. -/
def chatLine (h : Hit) : String :=
  if payloadTruthy h.payload then
    match h.payload with
    | some pl => pvalToStr (pget pl "text" (PVal.s "N/A")) ++ "\n"
    | none => ""
  else ""

/-- The chat context block: the concatenation of the hit lines. -/
def chatContextBody : List Hit → String
  | [] => ""
  | h :: hs => chatLine h ++ chatContextBody hs

/-- The full chat prompt (app.py line 300). -/
def chatPrompt (hits : List Hit) (user_message : String) : String :=
  systemPromptMsg ++ "\n\n" ++ chatContextBody hits ++ "\n\nUser: " ++ user_message ++ "\nAssistant:"

/-- The chat turn point `chat_post` stores (app.py lines 321-336): a
fresh UUID string id and the session payload. -/
def mkChatTurn (embed : EmbedFn) (sid user_message ai_response : String)
    (timestamp : Int) (collection_name new_uuid : String) : Point :=
  ⟨.str new_uuid, embed user_message,
    some [("session_id", .s sid), ("user_message", .s user_message),
          ("bot_response", .s ai_response), ("timestamp", .n timestamp),
          ("collection", .s collection_name)]⟩

/-- The similarity search `chat_post` issues (app.py lines 287-291):
limit 5, with no prior existence check on the target collection. -/
def chat_post_search (score : ScoreFn) (embed : EmbedFn) (st : Store)
    (collection_name user_message : String) : Option (List Hit) :=
  clientSearchStore score st collection_name (embed user_message) 5

/-- Model of the `chat_post` handler core (app.py lines 280-348): search
the target collection (raising, `none`, if it does not exist), generate
the reply, create the chat_history collection on demand, and store the
turn.  `timestamp` and `new_uuid` stand for int(time.time()) and
uuid4(). -/
def chat_post (score : ScoreFn) (embed : EmbedFn) (gen : GenFn) (st : Store)
    (collection_name user_message sid : String) (timestamp : Int)
    (new_uuid : String) : Option (String × Store) :=
  match chat_post_search score embed st collection_name user_message with
  | none => none
  | some search_result =>
    let ai_response := gen (chatPrompt search_result user_message)
    let st1 :=
      if "chat_history" ∈ collectionNames st then st
      else ⟨st.collections ++ [⟨"chat_history", (embed user_message).length, .cosine, []⟩]⟩
    some (ai_response,
      upsertStore st1 "chat_history"
        [mkChatTurn embed sid user_message ai_response timestamp collection_name new_uuid])

/-- Verbatim containment of one string in another, by an explicit
decomposition of the character data. -/
def occursIn (s t : String) : Prop :=
  ∃ a b : List Char, t.data = a ++ s.data ++ b

theorem mkUploadPoints_ids (embed : EmbedFn) (fname : String) (nid : Nat) :
    ∀ (rest : List String) (i : Nat),
      (mkUploadPoints embed fname nid i rest).map Point.id
        = (List.range rest.length).map (fun j => PointId.num (nid + (i + j))) := by
  intro rest
  induction rest with
  | nil => intro i; simp [mkUploadPoints]
  | cons c rest ih =>
    intro i
    simp only [mkUploadPoints, List.map_cons, ih (i + 1), List.length_cons,
      List.range_succ_eq_map, List.map_map, mkUploadPoint]
    refine List.cons_eq_cons.mpr ⟨by simp, ?_⟩
    apply List.map_congr_left
    intro a _
    simp only [Function.comp]
    congr 1
    omega

theorem mkUploadPoints_length (embed : EmbedFn) (fname : String) (nid : Nat) :
    ∀ (rest : List String) (i : Nat),
      (mkUploadPoints embed fname nid i rest).length = rest.length := by
  intro rest
  induction rest with
  | nil => intro i; simp [mkUploadPoints]
  | cons c rest ih => intro i; simp [mkUploadPoints, ih (i + 1)]

theorem uploadLoop_spec (embed : EmbedFn) (fname : String) (nid n : Nat) :
    ∀ (rest : List String) (i : Nat) (batch : List Point) (out : List (List Point)),
      i + rest.length = n →
      (rest = [] → batch = []) →
      batch.length < 20 →
      (∀ b ∈ out, b.length = 20) →
      (uploadLoop embed fname nid n rest i batch out).flatten
          = out.flatten ++ batch ++ mkUploadPoints embed fname nid i rest
        ∧ (∀ b ∈ (uploadLoop embed fname nid n rest i batch out).dropLast, b.length = 20)
        ∧ (∀ b ∈ uploadLoop embed fname nid n rest i batch out, b ≠ [] ∧ b.length ≤ 20) := by
  intro rest
  induction rest with
  | nil =>
    intro i batch out hn hempty hblen hout
    have hb : batch = [] := hempty rfl
    subst hb
    refine ⟨by simp [uploadLoop, mkUploadPoints], ?_, ?_⟩
    · intro b hb
      exact hout b (List.dropLast_subset _ hb)
    · intro b hb
      have h20 := hout b hb
      exact ⟨by intro h; rw [h] at h20; simp at h20, by omega⟩
  | cons c rest ih =>
    intro i batch out hn hempty hblen hout
    simp only [uploadLoop]
    by_cases hcond : (batch ++ [mkUploadPoint embed fname nid i c]).length = 20 ∨ i = n - 1
    · rw [if_pos hcond]
      by_cases h20 : (batch ++ [mkUploadPoint embed fname nid i c]).length = 20
      · have hrec := ih (i + 1) [] (out ++ [batch ++ [mkUploadPoint embed fname nid i c]])
          (by simp only [List.length_cons] at hn; omega) (fun _ => rfl) (by simp)
          (by
            intro b hb
            rcases List.mem_append.mp hb with hb | hb
            · exact hout b hb
            · rw [List.mem_singleton.mp hb]; exact h20)
        refine ⟨?_, hrec.2.1, hrec.2.2⟩
        rw [hrec.1]
        simp [mkUploadPoints, List.append_assoc]
      · have hi : i = n - 1 := hcond.resolve_left h20
        have hrest : rest = [] := by
          simp only [List.length_cons] at hn
          have : rest.length = 0 := by omega
          exact List.eq_nil_of_length_eq_zero this
        subst hrest
        simp only [uploadLoop]
        refine ⟨by simp [mkUploadPoints, List.append_assoc], ?_, ?_⟩
        · intro b hb
          rw [List.dropLast_concat] at hb
          exact hout b hb
        · intro b hb
          rcases List.mem_append.mp hb with hb | hb
          · have h20b := hout b hb
            exact ⟨by intro h; rw [h] at h20b; simp at h20b, by omega⟩
          · rw [List.mem_singleton.mp hb]
            constructor
            · simp
            · simp only [List.length_append, List.length_singleton]
              omega
    · rw [if_neg hcond]
      push_neg at hcond
      have hlen2 : (batch ++ [mkUploadPoint embed fname nid i c]).length = batch.length + 1 := by
        simp
      rw [hlen2] at hcond
      have hrec := ih (i + 1) (batch ++ [mkUploadPoint embed fname nid i c]) out
        (by simp only [List.length_cons] at hn; omega)
        (by
          intro hrest
          exfalso
          subst hrest
          simp only [List.length_cons, List.length_nil] at hn
          exact hcond.2 (by omega))
        (by rw [hlen2]; omega)
        hout
      refine ⟨?_, hrec.2.1, hrec.2.2⟩
      rw [hrec.1]
      simp [mkUploadPoints, List.append_assoc]

theorem uploadBatches_spec (embed : EmbedFn) (fname : String) (nid : Nat) (chunks : List String) :
    (uploadBatches embed fname nid chunks).flatten = mkUploadPoints embed fname nid 0 chunks
    ∧ (∀ b ∈ (uploadBatches embed fname nid chunks).dropLast, b.length = 20)
    ∧ (∀ b ∈ uploadBatches embed fname nid chunks, b ≠ [] ∧ b.length ≤ 20) := by
  have h := uploadLoop_spec embed fname nid chunks.length chunks 0 [] []
    (by simp) (fun _ => rfl) (by simp) (by simp)
  unfold uploadBatches
  exact ⟨by simpa using h.1, h.2.1, h.2.2⟩

theorem scannedIds_isSome (pts : List Point) (h : ∀ p ∈ pts, (pyIntOfId p.id).isSome) :
    ∃ ids, scannedIds pts = some ids ∧ ids.length = pts.length := by
  induction pts with
  | nil => exact ⟨[], rfl, rfl⟩
  | cons p rest ih =>
    obtain ⟨i, hi⟩ := Option.isSome_iff_exists.mp (h p (by simp))
    obtain ⟨ids, hids, hlen⟩ := ih (fun q hq => h q (by simp [hq]))
    exact ⟨i :: ids, by simp [scannedIds, hi, hids], by simp [hlen]⟩

theorem getCollection_isSome_of_mem {st : Store} {name : String}
    (h : name ∈ collectionNames st) : ∃ c, getCollection st name = some c := by
  unfold collectionNames at h
  obtain ⟨c, hc, hname⟩ := List.mem_map.mp h
  have hs : (st.collections.find? (fun c => c.name == name)).isSome :=
    List.find?_isSome.mpr ⟨c, hc, by simp [hname]⟩
  obtain ⟨c0, hc0⟩ := Option.isSome_iff_exists.mp hs
  exact ⟨c0, hc0⟩

theorem getCollection_eq_none {st : Store} {name : String}
    (h : name ∉ collectionNames st) : getCollection st name = none := by
  unfold getCollection
  rw [List.find?_eq_none]
  intro c hc
  simp only [beq_iff_eq]
  intro heq
  exact h (List.mem_map.mpr ⟨c, hc, heq⟩)

theorem clientSearch_length_le (score : ScoreFn) (coll : Collection) (qv : List ℚ) (limit : Nat) :
    (clientSearch score coll qv limit).length ≤ limit := by
  unfold clientSearch
  exact List.length_take_le _ _

theorem clientSearch_sorted (score : ScoreFn) (coll : Collection) (qv : List ℚ) (limit : Nat) :
    (clientSearch score coll qv limit).Pairwise (fun a b => b.score ≤ a.score) := by
  unfold clientSearch
  have hs : ((coll.points.map fun p => Hit.mk p.id (score qv p.vector) p.payload).mergeSort
      (fun a b => decide (b.score ≤ a.score))).Pairwise
        (fun a b => decide (b.score ≤ a.score) = true) := by
    apply List.sorted_mergeSort
    · intro a b c h1 h2
      simp only [decide_eq_true_eq] at h1 h2 ⊢
      exact le_trans h2 h1
    · intro a b
      simp only [Bool.or_eq_true, decide_eq_true_eq]
      exact le_total b.score a.score
  have hsub := List.Pairwise.sublist (List.take_sublist limit _) hs
  exact hsub.imp (fun h => of_decide_eq_true h)

theorem occursIn_self (s : String) : occursIn s s :=
  ⟨[], [], by simp⟩

theorem occursIn_appendL {s t : String} (u : String) (h : occursIn s t) : occursIn s (t ++ u) := by
  obtain ⟨a, b, hd⟩ := h
  exact ⟨a, b ++ u.data, by simp [hd, List.append_assoc]⟩

theorem occursIn_appendR {s t : String} (u : String) (h : occursIn s t) : occursIn s (u ++ t) := by
  obtain ⟨a, b, hd⟩ := h
  exact ⟨u.data ++ a, b, by simp [hd, List.append_assoc]⟩

theorem occursIn_trans {s t r : String} (h1 : occursIn s t) (h2 : occursIn t r) : occursIn s r := by
  obtain ⟨a, b, hab⟩ := h1
  obtain ⟨e, f, hef⟩ := h2
  exact ⟨e ++ a, b ++ f, by simp [hef, hab, List.append_assoc]⟩

theorem contextBody_contains (hits : List Hit) :
    ∀ (i k : Nat) (hk : Hit), hits[k]? = some hk →
      occursIn (hitLine (i + k) hk) (contextBody i hits) := by
  induction hits with
  | nil => intro i k hk h; simp at h
  | cons h hs ih =>
    intro i k hk hget
    cases k with
    | zero =>
      simp only [List.getElem?_cons_zero, Option.some_inj] at hget
      subst hget
      show occursIn (hitLine (i + 0) h) (hitLine i h ++ contextBody (i + 1) hs)
      simpa using occursIn_appendL (contextBody (i + 1) hs) (occursIn_self (hitLine i h))
    | succ k =>
      simp only [List.getElem?_cons_succ] at hget
      have h2 := occursIn_appendR (hitLine i h) (ih (i + 1) k hk hget)
      have harith : i + (k + 1) = i + 1 + k := by omega
      show occursIn (hitLine (i + (k + 1)) hk) (hitLine i h ++ contextBody (i + 1) hs)
      rw [harith]
      exact h2

theorem tsLe_trans : ∀ a b c : Point, tsLe a b = true → tsLe b c = true → tsLe a c = true := by
  intro a b c h1 h2
  simp only [tsLe, decide_eq_true_eq] at h1 h2 ⊢
  omega

theorem tsLe_total : ∀ a b : Point, (tsLe a b || tsLe b a) = true := by
  intro a b
  simp only [tsLe, Bool.or_eq_true, decide_eq_true_eq]
  omega

theorem replay_filter_sorted (sid : String) (l : List Point) :
    ((l.mergeSort tsLe).filter (isSessionTurn sid)).Pairwise (fun a b => tsKey a ≤ tsKey b) := by
  have hs : (l.mergeSort tsLe).Pairwise (fun a b => tsLe a b = true) :=
    List.sorted_mergeSort tsLe_trans tsLe_total l
  have hsub := List.Pairwise.sublist (List.filter_sublist (p := isSessionTurn sid) _) hs
  exact hsub.imp (fun h => by simpa [tsLe] using h)

theorem replay_filter_eq (sid : String) {l pts : List Point} (hperm : l.Perm pts)
    (hdist : (pts.filter (isSessionTurn sid)).Pairwise (fun a b => tsKey a ≠ tsKey b)) :
    (l.mergeSort tsLe).filter (isSessionTurn sid)
      = (pts.mergeSort tsLe).filter (isSessionTurn sid) := by
  have hp1 : ((l.mergeSort tsLe).filter (isSessionTurn sid)).Perm
      (pts.filter (isSessionTurn sid)) :=
    ((List.mergeSort_perm l tsLe).trans hperm).filter _
  have hp2 : ((pts.mergeSort tsLe).filter (isSessionTurn sid)).Perm
      (pts.filter (isSessionTurn sid)) :=
    (List.mergeSort_perm pts tsLe).filter _
  have hd1 : ((l.mergeSort tsLe).filter (isSessionTurn sid)).Pairwise
      (fun a b => tsKey a ≠ tsKey b) :=
    (hp1.pairwise_iff (fun h => Ne.symm h)).mpr hdist
  have hd2 : ((pts.mergeSort tsLe).filter (isSessionTurn sid)).Pairwise
      (fun a b => tsKey a ≠ tsKey b) :=
    (hp2.pairwise_iff (fun h => Ne.symm h)).mpr hdist
  have hstrict : ∀ (m : List Point), m.Pairwise (fun a b => tsKey a ≤ tsKey b) →
      m.Pairwise (fun a b => tsKey a ≠ tsKey b) →
      m.Pairwise (fun a b => tsKey a < tsKey b) := by
    intro m hle hne
    rw [List.pairwise_iff_forall_sublist] at hle hne ⊢
    intro a b hsub
    exact lt_of_le_of_ne (hle hsub) (hne hsub)
  haveI hIA : IsAntisymm Point (fun a b => tsKey a < tsKey b) :=
    ⟨fun a b h1 h2 => absurd (lt_trans h1 h2) (lt_irrefl _)⟩
  exact List.eq_of_perm_of_sorted (r := fun a b => tsKey a < tsKey b) (hp1.trans hp2.symm)
    (hstrict _ (replay_filter_sorted sid l) hd1)
    (hstrict _ (replay_filter_sorted sid pts) hd2)

/-- C1: for every query string and every collection name that is not
among the collections of the store, `search_and_query_groq` returns the pair
of an empty result list and the fixed sentinel message, raises no
exception (the result is `some`), and makes no embedding, search, or
generator call (the call trace is empty). -/
theorem c1_missing_collection_sentinel (score : ScoreFn) (embed : EmbedFn) (gen : GenFn)
    (st : Store) (query collection_name : String)
    (h : collection_name ∉ collectionNames st) :
    search_and_query_groq score embed gen st query collection_name
      = some ⟨[], sentinelMsg, []⟩ := by
  unfold search_and_query_groq
  rw [if_neg h]

/-- Witness for C1 at a concrete store without the requested collection. -/
theorem c1_missing_collection_sentinel_witness :
    "kb" ∉ collectionNames ⟨[⟨"docs", 384, .cosine, []⟩]⟩
    ∧ search_and_query_groq (fun _ _ => 0) (fun _ => []) (fun _ => "")
        ⟨[⟨"docs", 384, .cosine, []⟩]⟩ "what" "kb" = some ⟨[], sentinelMsg, []⟩ :=
  ⟨by decide, c1_missing_collection_sentinel _ _ _ _ _ _ (by decide)⟩

/-- C10: the chat POST route searches without first checking that the
target collection exists, so for a nonexistent collection the store
error propagates (`chat_post` is `none`) while the
soft-failure sentinel applies only to `search_and_query_groq`. -/
theorem c10_chat_post_propagates (score : ScoreFn) (embed : EmbedFn) (gen : GenFn)
    (st : Store) (collection_name user_message sid : String) (timestamp : Int)
    (new_uuid : String)
    (h : collection_name ∉ collectionNames st) :
    chat_post score embed gen st collection_name user_message sid timestamp new_uuid = none
    ∧ search_and_query_groq score embed gen st user_message collection_name
        = some ⟨[], sentinelMsg, []⟩ := by
  have hn := getCollection_eq_none h
  constructor
  · unfold chat_post chat_post_search clientSearchStore
    rw [hn]
  · unfold search_and_query_groq
    rw [if_neg h]

/-- Witness for C10 at a concrete store without the requested collection. -/
theorem c10_chat_post_propagates_witness :
    "kb" ∉ collectionNames ⟨[⟨"docs", 384, .cosine, []⟩]⟩
    ∧ chat_post (fun _ _ => 0) (fun _ => []) (fun _ => "")
        ⟨[⟨"docs", 384, .cosine, []⟩]⟩ "kb" "hi" "sid1" 5 "uuid-1" = none
    ∧ search_and_query_groq (fun _ _ => 0) (fun _ => []) (fun _ => "")
        ⟨[⟨"docs", 384, .cosine, []⟩]⟩ "hi" "kb" = some ⟨[], sentinelMsg, []⟩ :=
  ⟨by decide, c10_chat_post_propagates _ _ _ _ _ _ _ _ _ (by decide)⟩

/-- C8: creating a collection whose name already exists reports a
non-fatal failure message without raising and leaves the store
unchanged; creating a fresh name appends a cosine collection of the
requested vector size. -/
theorem c8_create_collection (st : Store) (collection_name : String) (vector_size : Nat) :
    (collection_name ∈ collectionNames st →
      create_collection st collection_name vector_size
        = (st, "Collection \x27" ++ collection_name ++ "\x27 already exists.", false))
    ∧ (collection_name ∉ collectionNames st →
      create_collection st collection_name vector_size
        = (⟨st.collections ++ [⟨collection_name, vector_size, .cosine, []⟩]⟩,
           "Collection \x27" ++ collection_name ++ "\x27 created successfully!", true)) := by
  constructor
  · intro h
    unfold create_collection
    rw [if_pos h]
  · intro h
    unfold create_collection
    rw [if_neg h]

/-- Witness for C8: both branches at a concrete store. -/
theorem c8_create_collection_witness :
    ("docs" ∈ collectionNames ⟨[⟨"docs", 384, .cosine, []⟩]⟩
      ∧ create_collection ⟨[⟨"docs", 384, .cosine, []⟩]⟩ "docs" 384
          = (⟨[⟨"docs", 384, .cosine, []⟩]⟩,
             "Collection \x27docs\x27 already exists.", false))
    ∧ ("kb" ∉ collectionNames ⟨[⟨"docs", 384, .cosine, []⟩]⟩
      ∧ create_collection ⟨[⟨"docs", 384, .cosine, []⟩]⟩ "kb" 256
          = (⟨[⟨"docs", 384, .cosine, []⟩, ⟨"kb", 256, .cosine, []⟩]⟩,
             "Collection \x27kb\x27 created successfully!", true)) :=
  ⟨⟨by decide, (c8_create_collection _ _ _).1 (by decide)⟩,
   ⟨by decide, (c8_create_collection _ _ _).2 (by decide)⟩⟩

/-- C4: against an existing collection the retrieval pipeline returns at
most 10 hits ordered by non-increasing similarity score, and the chat
search of the chat route returns at most 5, the two fixed per-entry-point K
values. -/
theorem c4_topk_sorted (score : ScoreFn) (embed : EmbedFn) (gen : GenFn) (st : Store)
    (query collection_name : String)
    (h : collection_name ∈ collectionNames st) :
    (∃ out, search_and_query_groq score embed gen st query collection_name = some out
      ∧ out.hits.length ≤ 10
      ∧ out.hits.Pairwise (fun a b => b.score ≤ a.score))
    ∧ (∃ hits, chat_post_search score embed st collection_name query = some hits
      ∧ hits.length ≤ 5
      ∧ hits.Pairwise (fun a b => b.score ≤ a.score)) := by
  obtain ⟨c, hc⟩ := getCollection_isSome_of_mem h
  constructor
  · have heq : search_and_query_groq score embed gen st query collection_name
        = some ⟨clientSearch score c (embed query) 10,
                gen (buildPrompt (clientSearch score c (embed query) 10) query),
                [.embedCall query, .searchCall collection_name 10,
                 .genCall (buildPrompt (clientSearch score c (embed query) 10) query)]⟩ := by
      unfold search_and_query_groq clientSearchStore
      rw [if_pos h, hc]
    exact ⟨_, heq, clientSearch_length_le _ _ _ _, clientSearch_sorted _ _ _ _⟩
  · have heq : chat_post_search score embed st collection_name query
        = some (clientSearch score c (embed query) 5) := by
      unfold chat_post_search clientSearchStore
      rw [hc]
    exact ⟨_, heq, clientSearch_length_le _ _ _ _, clientSearch_sorted _ _ _ _⟩

/-- Witness for C4 at a concrete one-collection store. -/
theorem c4_topk_sorted_witness :
    "docs" ∈ collectionNames ⟨[⟨"docs", 1, .cosine, [⟨.num 1, [1], some [("text", .s "t1")]⟩]⟩]⟩
    ∧ ((∃ out, search_and_query_groq (fun _ _ => 0) (fun _ => [1]) (fun _ => "ans")
          ⟨[⟨"docs", 1, .cosine, [⟨.num 1, [1], some [("text", .s "t1")]⟩]⟩]⟩ "q" "docs" = some out
        ∧ out.hits.length ≤ 10
        ∧ out.hits.Pairwise (fun a b => b.score ≤ a.score))
      ∧ (∃ hits, chat_post_search (fun _ _ => 0) (fun _ => [1])
          ⟨[⟨"docs", 1, .cosine, [⟨.num 1, [1], some [("text", .s "t1")]⟩]⟩]⟩ "docs" "q" = some hits
        ∧ hits.length ≤ 5
        ∧ hits.Pairwise (fun a b => b.score ≤ a.score))) :=
  ⟨by decide, c4_topk_sorted _ _ _ _ _ _ (by decide)⟩

/-- C7: the prompt submitted to the generator is exactly the numbered
context block followed by the literal question in the fixed format, and
it contains verbatim the query, the numbered context line of each hit, and
the text body of each truthy-payload hit. -/
theorem c7_prompt_assembly (hits : List Hit) (query : String) :
    buildPrompt hits query
      = buildContext hits ++ "\n\nQuestion: " ++ query ++ "\n\nAnswer based on the documents above:"
    ∧ occursIn query (buildPrompt hits query)
    ∧ (∀ (k : Nat) (hk : Hit), hits[k]? = some hk →
        occursIn (hitLine (k + 1) hk) (buildPrompt hits query))
    ∧ (∀ (k : Nat) (hk : Hit) (pl : Payload), hits[k]? = some hk →
        hk.payload = some pl → pl.isEmpty = false →
        occursIn (pvalToStr (pget pl "text" (PVal.s "N/A"))) (buildPrompt hits query)) := by
  have hlineIn : ∀ (k : Nat) (hk : Hit), hits[k]? = some hk →
      occursIn (hitLine (1 + k) hk) (buildPrompt hits query) := by
    intro k hk hget
    have h1 := contextBody_contains hits 1 k hk hget
    unfold buildPrompt buildContext
    exact occursIn_appendL _ (occursIn_appendL _ (occursIn_appendL _ (occursIn_appendR _ h1)))
  refine ⟨rfl, ?_, ?_, ?_⟩
  · exact ⟨(buildContext hits ++ "\n\nQuestion: ").data,
           "\n\nAnswer based on the documents above:".data,
           by simp [buildPrompt, List.append_assoc]⟩
  · intro k hk hget
    have h2 := hlineIn k hk hget
    rwa [Nat.add_comm 1 k] at h2
  · intro k hk pl hget hpl hne
    have hline : hitLine (1 + k) hk
        = toString (1 + k) ++ ". " ++ pvalToStr (pget pl "text" (PVal.s "N/A")) ++ "\n" := by
      simp [hitLine, payloadTruthy, hpl, hne]
    have htext : occursIn (pvalToStr (pget pl "text" (PVal.s "N/A"))) (hitLine (1 + k) hk) := by
      rw [hline]
      exact ⟨(toString (1 + k) ++ ". ").data, "\n".data, by simp [List.append_assoc]⟩
    exact occursIn_trans htext (hlineIn k hk hget)

/-- Witness for C7 at a concrete hit list and query. -/
theorem c7_prompt_assembly_witness :
    occursIn "what" (buildPrompt [⟨.num 1, 0, some [("text", .s "t1")]⟩] "what")
    ∧ occursIn "t1" (buildPrompt [⟨.num 1, 0, some [("text", .s "t1")]⟩] "what") :=
  ⟨(c7_prompt_assembly [⟨.num 1, 0, some [("text", .s "t1")]⟩] "what").2.1,
   (c7_prompt_assembly [⟨.num 1, 0, some [("text", .s "t1")]⟩] "what").2.2.2
     0 _ [("text", PVal.s "t1")] rfl rfl rfl⟩

/-- C2: ingesting N chunks assigns identifiers 1..N when the 100-point
scan is empty, and M+1..M+N in chunk order when the maximum
numeric identifier is M. -/
theorem c2_id_assignment (coll_points : List Point) (embed : EmbedFn) (fname : String)
    (chunks : List String) :
    (pyScroll coll_points 100 = [] →
      ∃ bs, upload_pdf_ingest coll_points embed fname chunks = some bs
        ∧ bs.flatten.map Point.id
            = (List.range chunks.length).map (fun i => PointId.num (1 + i)))
    ∧ (∀ M, scannedMaxId (pyScroll coll_points 100) = some M →
      ∃ bs, upload_pdf_ingest coll_points embed fname chunks = some bs
        ∧ bs.flatten.map Point.id
            = (List.range chunks.length).map (fun i => PointId.num (M + 1 + i))) := by
  constructor
  · intro hscan
    refine ⟨uploadBatches embed fname 1 chunks, ?_, ?_⟩
    · unfold upload_pdf_ingest
      rw [hscan]
      rfl
    · rw [(uploadBatches_spec embed fname 1 chunks).1, mkUploadPoints_ids]
      apply List.map_congr_left
      intro j hj
      congr 1
      omega
  · intro M hM
    have hne : pyScroll coll_points 100 ≠ [] := by
      intro h
      rw [h] at hM
      simp [scannedMaxId, scannedIds] at hM
    have hnext : nextIdFromScan (pyScroll coll_points 100) = some (M + 1) := by
      rcases hps : pyScroll coll_points 100 with _ | ⟨p, rest⟩
      · exact absurd hps hne
      · rw [hps] at hM
        show (scannedMaxId (p :: rest)).map (· + 1) = some (M + 1)
        rw [hM]
        rfl
    refine ⟨uploadBatches embed fname (M + 1) chunks, ?_, ?_⟩
    · unfold upload_pdf_ingest
      rw [hnext]
      rfl
    · rw [(uploadBatches_spec embed fname (M + 1) chunks).1, mkUploadPoints_ids]
      apply List.map_congr_left
      intro j hj
      congr 1
      omega

/-- Witness for C2: both scan cases at concrete inputs. -/
theorem c2_id_assignment_witness :
    (pyScroll ([] : List Point) 100 = []
      ∧ ∃ bs, upload_pdf_ingest [] (fun _ => []) "f.pdf" ["a", "b"] = some bs
          ∧ bs.flatten.map Point.id
              = (List.range (["a", "b"] : List String).length).map (fun i => PointId.num (1 + i)))
    ∧ (scannedMaxId (pyScroll [⟨PointId.num 7, [], none⟩] 100) = some 7
      ∧ ∃ bs, upload_pdf_ingest [⟨PointId.num 7, [], none⟩] (fun _ => []) "f.pdf" ["a", "b"] = some bs
          ∧ bs.flatten.map Point.id
              = (List.range (["a", "b"] : List String).length).map (fun i => PointId.num (7 + 1 + i))) :=
  ⟨⟨rfl, (c2_id_assignment [] (fun _ => []) "f.pdf" ["a", "b"]).1 rfl⟩,
   ⟨by decide,
    (c2_id_assignment [⟨PointId.num 7, [], none⟩] (fun _ => []) "f.pdf" ["a", "b"]).2 7 (by decide)⟩⟩

/-- C9: identifier assignment is total when every scanned point id is a
decimal integer, and the max-id computation raises on a collection state
holding a UUID string id of the kind the chat store generates. -/
theorem c9_non_numeric_id_raises (pts : List Point) :
    ((∀ p ∈ pyScroll pts 100, (pyIntOfId p.id).isSome) →
      (nextIdFromScan (pyScroll pts 100)).isSome)
    ∧ nextIdFromScan [⟨.str "550e8400-e29b-41d4-a716-446655440000", [], none⟩] = none := by
  constructor
  · intro h
    rcases hps : pyScroll pts 100 with _ | ⟨p, rest⟩
    · simp [nextIdFromScan]
    · rw [hps] at h
      obtain ⟨ids, hids, hlen⟩ := scannedIds_isSome (p :: rest) h
      have hnil : ids ≠ [] := by
        intro hi
        rw [hi] at hlen
        simp at hlen
      obtain ⟨m, hm⟩ : ∃ m, ids.max? = some m := by
        cases hm : ids.max? with
        | none => exact absurd (List.max?_eq_none_iff.mp hm) hnil
        | some m => exact ⟨m, rfl⟩
      show (nextIdFromScan (p :: rest)).isSome
      simp [nextIdFromScan, scannedMaxId, hids, hm]
  · decide

/-- Witness for the totality direction of C9 at a numeric-id store. -/
theorem c9_non_numeric_id_raises_witness :
    (∀ p ∈ pyScroll [⟨PointId.num 7, [], none⟩] 100, (pyIntOfId p.id).isSome)
    ∧ (nextIdFromScan (pyScroll [⟨PointId.num 7, [], none⟩] 100)).isSome :=
  ⟨by decide, (c9_non_numeric_id_raises [⟨PointId.num 7, [], none⟩]).1 (by decide)⟩

/-- C6: the upload batching upserts the point of every chunk exactly once in
chunk order, in consecutive batches of exactly 20 points except the
final partial batch, which is flushed regardless of its (nonempty)
size. -/
theorem c6_batch_discipline (embed : EmbedFn) (fname : String) (next_id : Nat)
    (chunks : List String) :
    (uploadBatches embed fname next_id chunks).flatten
        = mkUploadPoints embed fname next_id 0 chunks
    ∧ (uploadBatches embed fname next_id chunks).flatten.length = chunks.length
    ∧ (∀ b ∈ (uploadBatches embed fname next_id chunks).dropLast, b.length = 20)
    ∧ (∀ b ∈ uploadBatches embed fname next_id chunks, b ≠ [] ∧ b.length ≤ 20) := by
  obtain ⟨h1, h2, h3⟩ := uploadBatches_spec embed fname next_id chunks
  exact ⟨h1, by rw [h1, mkUploadPoints_length], h2, h3⟩

/-- Witness for C6 at a concrete chunk list. -/
theorem c6_batch_discipline_witness :
    (uploadBatches (fun _ => []) "f.pdf" 1 ["a", "b", "c"]).flatten.length
      = (["a", "b", "c"] : List String).length :=
  (c6_batch_discipline (fun _ => []) "f.pdf" 1 ["a", "b", "c"]).2.1

/-- C3: chunking text of length L with a positive window W yields the
blank-filtered fixed windows: there are ceil(L/W) windows, so the chunk
count is ceil(L/W) minus the discarded blank windows; each kept chunk is
an untrimmed window of length at most W, every non-final window has
length exactly W, and the windows concatenate back to the original text,
so the produced chunks concatenate to the text with the blank windows
removed. -/
theorem c3_chunking (all_text : List Char) (w : Nat) (hw : 0 < w) :
    extract_pdf_chunks all_text w = (textWindows w all_text).filter keepChunk
    ∧ (textWindows w all_text).flatten = all_text
    ∧ (textWindows w all_text).length = (all_text.length + w - 1) / w
    ∧ (extract_pdf_chunks all_text w).length
        = (all_text.length + w - 1) / w
          - ((textWindows w all_text).filter (fun l => !keepChunk l)).length
    ∧ (∀ c ∈ extract_pdf_chunks all_text w, c ∈ textWindows w all_text ∧ c.length ≤ w)
    ∧ (∀ l ∈ (textWindows w all_text).dropLast, l.length = w) := by
  have hdef : extract_pdf_chunks all_text w = (textWindows w all_text).filter keepChunk := rfl
  refine ⟨rfl, textWindows_flatten hw _, textWindows_count hw _, ?_, ?_,
    textWindows_dropLast_size hw _⟩
  · have hsum := List.length_eq_length_filter_add (l := textWindows w all_text) keepChunk
    rw [hdef, ← textWindows_count hw]
    omega
  · intro c hc
    rw [hdef] at hc
    exact ⟨(List.mem_filter.mp hc).1, textWindows_size_le _ c (List.mem_filter.mp hc).1⟩

/-- Witness for C3 at a six-character text with one blank window. -/
theorem c3_chunking_witness :
    0 < 2
    ∧ (extract_pdf_chunks ['a', 'b', ' ', ' ', ' ', 'c'] 2).length
        = ((['a', 'b', ' ', ' ', ' ', 'c'] : List Char).length + 2 - 1) / 2
          - ((textWindows 2 ['a', 'b', ' ', ' ', ' ', 'c']).filter (fun l => !keepChunk l)).length :=
  ⟨by decide, (c3_chunking ['a', 'b', ' ', ' ', ' ', 'c'] 2 (by decide)).2.2.2.1⟩

/-- C5: session replay returns exactly the turns of the requested session
sorted by timestamp ascending — whatever order the scan yields the
points — and excludes the turns of other sessions (timestamps within
the session assumed distinct, as the strictly increasing t1 < t2 < t3
of the claim are). -/
theorem c5_session_replay (pts scan_order : List Point) (sid : String)
    (hperm : scan_order.Perm pts)
    (hdist : (pts.filter (isSessionTurn sid)).Pairwise (fun a b => tsKey a ≠ tsKey b)) :
    chat_session_replay scan_order sid = chat_session_replay pts sid
    ∧ ∃ ordered : List Point,
        chat_session_replay pts sid = ordered.map turnOf
        ∧ ordered.Perm (pts.filter (isSessionTurn sid))
        ∧ ordered.Pairwise (fun a b => tsKey a ≤ tsKey b) := by
  constructor
  · unfold chat_session_replay
    rw [replay_filter_eq sid hperm hdist]
  · exact ⟨(pts.mergeSort tsLe).filter (isSessionTurn sid), rfl,
      (List.mergeSort_perm pts tsLe).filter _, replay_filter_sorted sid pts⟩

/-- Witness for C5: three turns of one session stored out of order plus
one turn of another session. -/
theorem c5_session_replay_witness :
    ([⟨PointId.str "u2", [], some [("session_id", PVal.s "s"), ("timestamp", PVal.n 2),
        ("user_message", PVal.s "m2"), ("bot_response", PVal.s "r2")]⟩,
      ⟨PointId.str "u9", [], some [("session_id", PVal.s "other"), ("timestamp", PVal.n 9),
        ("user_message", PVal.s "m9"), ("bot_response", PVal.s "r9")]⟩,
      ⟨PointId.str "u3", [], some [("session_id", PVal.s "s"), ("timestamp", PVal.n 3),
        ("user_message", PVal.s "m3"), ("bot_response", PVal.s "r3")]⟩,
      ⟨PointId.str "u1", [], some [("session_id", PVal.s "s"), ("timestamp", PVal.n 1),
        ("user_message", PVal.s "m1"), ("bot_response", PVal.s "r1")]⟩] : List Point).Perm
      [⟨PointId.str "u1", [], some [("session_id", PVal.s "s"), ("timestamp", PVal.n 1),
        ("user_message", PVal.s "m1"), ("bot_response", PVal.s "r1")]⟩,
      ⟨PointId.str "u2", [], some [("session_id", PVal.s "s"), ("timestamp", PVal.n 2),
        ("user_message", PVal.s "m2"), ("bot_response", PVal.s "r2")]⟩,
      ⟨PointId.str "u3", [], some [("session_id", PVal.s "s"), ("timestamp", PVal.n 3),
        ("user_message", PVal.s "m3"), ("bot_response", PVal.s "r3")]⟩,
      ⟨PointId.str "u9", [], some [("session_id", PVal.s "other"), ("timestamp", PVal.n 9),
        ("user_message", PVal.s "m9"), ("bot_response", PVal.s "r9")]⟩]
    ∧ chat_session_replay
        [⟨PointId.str "u2", [], some [("session_id", PVal.s "s"), ("timestamp", PVal.n 2),
            ("user_message", PVal.s "m2"), ("bot_response", PVal.s "r2")]⟩,
         ⟨PointId.str "u9", [], some [("session_id", PVal.s "other"), ("timestamp", PVal.n 9),
            ("user_message", PVal.s "m9"), ("bot_response", PVal.s "r9")]⟩,
         ⟨PointId.str "u3", [], some [("session_id", PVal.s "s"), ("timestamp", PVal.n 3),
            ("user_message", PVal.s "m3"), ("bot_response", PVal.s "r3")]⟩,
         ⟨PointId.str "u1", [], some [("session_id", PVal.s "s"), ("timestamp", PVal.n 1),
            ("user_message", PVal.s "m1"), ("bot_response", PVal.s "r1")]⟩] "s"
      = chat_session_replay
        [⟨PointId.str "u1", [], some [("session_id", PVal.s "s"), ("timestamp", PVal.n 1),
            ("user_message", PVal.s "m1"), ("bot_response", PVal.s "r1")]⟩,
         ⟨PointId.str "u2", [], some [("session_id", PVal.s "s"), ("timestamp", PVal.n 2),
            ("user_message", PVal.s "m2"), ("bot_response", PVal.s "r2")]⟩,
         ⟨PointId.str "u3", [], some [("session_id", PVal.s "s"), ("timestamp", PVal.n 3),
            ("user_message", PVal.s "m3"), ("bot_response", PVal.s "r3")]⟩,
         ⟨PointId.str "u9", [], some [("session_id", PVal.s "other"), ("timestamp", PVal.n 9),
            ("user_message", PVal.s "m9"), ("bot_response", PVal.s "r9")]⟩] "s" :=
  ⟨by decide,
   (c5_session_replay _ _ "s" (by decide) (by decide)).1⟩
